import Mathlib

/-!
Verification of `bincreator.py` (repository `sftpx`).

The source is a single Python function:

```python
def generate_random_file(filename, size_gb):
    chunk_size = 1024 * 1024  # 1 MB
    target_bytes = int(size_gb * (1024 ** 3)) # Convert GB to bytes (Gibibytes)
    with open(filename, 'wb') as f:
        bytes_written = 0
        while bytes_written < target_bytes:
            bytes_to_write = min(chunk_size, target_bytes - bytes_written)
            random_data = os.urandom(bytes_to_write)
            f.write(random_data)
            bytes_written += bytes_to_write
    print(f"File ... has been created.")
```

Shallow embedding notes:

* `size_gb` is modelled as a rational number.  Every Python float is a
  rational, and multiplying a float by `1024 ** 3 = 2 ^ 30` is exact in IEEE
  double arithmetic (it only shifts the exponent), so computing
  `size_gb * (1024 ** 3)` in exact rational arithmetic is faithful to the
  source whenever the source call succeeds.
* Python `int()` truncates toward zero; `py_int` below does the same.
* `os.urandom` is modelled as an infinite stream of bytes consumed
  sequentially; the file system and write errors are modelled by an
  environment `Env` with an `open_ok` flag and a per-write `write_ok` oracle
  (Python raises an exception on a failed open or write, which aborts the
  `with` block and skips the final `print`).
* The `while` loop is embedded twice, in both cases as a direct transcription
  of lines 15-25 of the source: `gen_loop` is the recursive form used to
  compute the final result, and `loop_body` / `state_after` is the
  step-indexed form used to state the loop invariant and termination claims
  about intermediate iteration boundaries.
-/

namespace Bincreator

/-- A byte, the unit produced by `os.urandom`. -/
abbrev Byte := Fin 256

/-- The environment of a run: the random stream behind `os.urandom`, and
oracles saying whether the `open` call and the `k`-th `f.write` call succeed
(in Python a failure is an `OSError` exception). -/
structure Env where
  urandom : ℕ → Byte
  open_ok : Bool
  write_ok : ℕ → Bool

/-- Line 11 of the source: `chunk_size = 1024 * 1024`. -/
def chunk_size : ℕ := 1024 * 1024

/-- Python `int()` applied to a rational: truncation toward zero. -/
def py_int (q : ℚ) : ℤ := if 0 ≤ q then ⌊q⌋ else ⌈q⌉

/-- Line 12 of the source: `target_bytes = int(size_gb * (1024 ** 3))`. -/
def target_bytes (size_gb : ℚ) : ℤ := py_int (size_gb * (1024 : ℚ) ^ 3)

/-- Lines 16-25 of the source: the `while` loop, as a recursion on the state
`bytes_written`.  `pos` is the number of bytes consumed from the random
stream so far and `k` the index of the next write (both `0` at entry).

Returns `(ok, content, writes)`: whether the loop completed without a write
error, the bytes appended to the file (up to the failure point on error; a
failed write appends nothing), and the sizes of the successful writes. -/
def gen_loop (env : Env) (target : ℤ) (bytes_written : ℤ) (pos k : ℕ) :
    Bool × List Byte × List ℕ :=
  if _h : bytes_written < target then
    let bytes_to_write : ℤ := min (chunk_size : ℤ) (target - bytes_written)
    let n : ℕ := bytes_to_write.toNat
    let random_data : List Byte := (List.range n).map fun i => env.urandom (pos + i)
    if env.write_ok k then
      let r := gen_loop env target (bytes_written + bytes_to_write) (pos + n) (k + 1)
      (r.1, random_data ++ r.2.1, n :: r.2.2)
    else (false, [], [])
  else (true, [], [])
termination_by (target - bytes_written).toNat
decreasing_by
  have hc : (chunk_size : ℤ) = 1048576 := by norm_num [chunk_size]
  omega

/-- A single quote character (`'`). -/
def quote_s : String := String.singleton (Char.ofNat 39)

/-- Line 26 of the source: the argument of the final `print`. -/
def completion_message (filename : String) (size_gb : ℚ) : String :=
  "File " ++ quote_s ++ filename ++ quote_s ++ " of " ++ toString size_gb ++
    "GB has been created."

/-- The observable outcome of one call of `generate_random_file`:
the file at `filename` after the run (`none` = absent), the sizes of the
chunk writes performed, the lines printed to stdout, and whether the call
completed without raising. -/
structure RunResult where
  file : Option (List Byte)
  writes : List ℕ
  stdout : List String
  ok : Bool

/-- Lines 11-26 of the source.  `prior` is the file at `filename` before the
call.  `open(filename, 'wb')` truncates: on a successful open the file
content restarts from `[]` regardless of `prior`.  The `print` on line 26 is
outside the `with` block and runs only if no exception was raised. -/
def generate_random_file (env : Env) (filename : String) (size_gb : ℚ)
    (prior : Option (List Byte)) : RunResult :=
  if env.open_ok then
    let r := gen_loop env (target_bytes size_gb) 0 0 0
    if r.1 then
      { file := some r.2.1, writes := r.2.2,
        stdout := [completion_message filename size_gb], ok := true }
    else
      { file := some r.2.1, writes := r.2.2, stdout := [], ok := false }
  else
    { file := prior, writes := [], stdout := [], ok := false }

/-- The `bytes_written` update performed by one iteration of lines 16-25
(identity when the loop condition on line 16 is false). -/
def loop_step (target bw : ℤ) : ℤ :=
  if bw < target then bw + min (chunk_size : ℤ) (target - bw) else bw

/-- `bytes_written` at the `j`-th iteration boundary of the loop. -/
def bytes_written_after (target : ℤ) : ℕ → ℤ
  | 0 => 0
  | j + 1 => loop_step target (bytes_written_after target j)

/-- The local state of the loop of lines 15-25: `bytes_written`, the file
content written so far, and the position in the random stream. -/
structure LoopState where
  bytes_written : ℤ
  content : List Byte
  pos : ℕ

/-- One iteration of the loop body (lines 16-25) on the full local state,
the identity when the loop condition is false. -/
def loop_body (s : ℕ → Byte) (target : ℤ) (st : LoopState) : LoopState :=
  if st.bytes_written < target then
    let bytes_to_write : ℤ := min (chunk_size : ℤ) (target - st.bytes_written)
    let n : ℕ := bytes_to_write.toNat
    { bytes_written := st.bytes_written + bytes_to_write,
      content := st.content ++ (List.range n).map fun i => s (st.pos + i),
      pos := st.pos + n }
  else st

/-- The loop state at the `j`-th iteration boundary, starting from line 15
(`bytes_written = 0`, empty file content after the truncating open). -/
def state_after (s : ℕ → Byte) (target : ℤ) : ℕ → LoopState
  | 0 => { bytes_written := 0, content := [], pos := 0 }
  | j + 1 => loop_body s target (state_after s target j)

/-! ### Helper lemmas about the loop -/

lemma gen_loop_exit (env : Env) (target bw : ℤ) (pos k : ℕ) (h : ¬ bw < target) :
    gen_loop env target bw pos k = (true, [], []) := by
  rw [gen_loop]
  simp [h]

lemma gen_loop_enter (env : Env) (target bw : ℤ) (pos k : ℕ) (h : bw < target)
    (hw : env.write_ok k = true) :
    gen_loop env target bw pos k =
      ((gen_loop env target (bw + min (chunk_size : ℤ) (target - bw))
          (pos + (min (chunk_size : ℤ) (target - bw)).toNat) (k + 1)).1,
       (List.range (min (chunk_size : ℤ) (target - bw)).toNat).map
           (fun i => env.urandom (pos + i)) ++
         (gen_loop env target (bw + min (chunk_size : ℤ) (target - bw))
            (pos + (min (chunk_size : ℤ) (target - bw)).toNat) (k + 1)).2.1,
       (min (chunk_size : ℤ) (target - bw)).toNat ::
         (gen_loop env target (bw + min (chunk_size : ℤ) (target - bw))
            (pos + (min (chunk_size : ℤ) (target - bw)).toNat) (k + 1)).2.2) := by
  rw [gen_loop]
  simp [h, hw]

/-- Peeling one write of size `min chunk_size r` off the write-size list of a
remaining byte count `r > 0`. -/
lemma sizes_cons (r : ℕ) (hrpos : 0 < r) :
    min chunk_size r ::
      (List.replicate ((r - min chunk_size r) / chunk_size) chunk_size ++
        (if (r - min chunk_size r) % chunk_size = 0 then []
         else [(r - min chunk_size r) % chunk_size])) =
    List.replicate (r / chunk_size) chunk_size ++
      (if r % chunk_size = 0 then [] else [r % chunk_size]) := by
  have hcn : chunk_size = 1048576 := by norm_num [chunk_size]
  rcases le_or_lt r chunk_size with hle | hgt
  · have hmin : min chunk_size r = r := by omega
    rw [hmin]
    have h0 : r - r = 0 := by omega
    rw [h0]
    rcases eq_or_lt_of_le hle with heq | hlt2
    · have d1 : chunk_size / chunk_size = 1 := by rw [hcn]
      have m1 : chunk_size % chunk_size = 0 := by rw [hcn]
      rw [heq, d1, m1]
      simp
    · rw [Nat.div_eq_of_lt hlt2, Nat.mod_eq_of_lt hlt2]
      have hne : r ≠ 0 := by omega
      simp [hne]
  · have hmin : min chunk_size r = chunk_size := by omega
    rw [hmin]
    have hdiv : r / chunk_size = (r - chunk_size) / chunk_size + 1 :=
      Nat.div_eq_sub_div (by omega) (le_of_lt hgt)
    have hmod : r % chunk_size = (r - chunk_size) % chunk_size :=
      Nat.mod_eq_sub_mod (le_of_lt hgt)
    rw [hdiv, hmod, List.replicate_succ, List.cons_append]

/-- Main characterisation of the loop when no write fails: the loop completes,
writes exactly the remaining `(target - bw).toNat` bytes, and the list of
write sizes is `⌊r / chunk⌋` full chunks followed by a final partial chunk of
`r % chunk` bytes when `r` is not a multiple of the chunk size. -/
lemma gen_loop_spec (env : Env) (hw : ∀ j, env.write_ok j = true) :
    ∀ (r : ℕ) (target bw : ℤ), (target - bw).toNat = r → ∀ (pos k : ℕ),
      (gen_loop env target bw pos k).1 = true ∧
      (gen_loop env target bw pos k).2.1.length = r ∧
      (gen_loop env target bw pos k).2.2 =
        List.replicate (r / chunk_size) chunk_size ++
          (if r % chunk_size = 0 then [] else [r % chunk_size]) := by
  intro r
  induction r using Nat.strong_induction_on with
  | _ r ih =>
    intro target bw hr pos k
    have hcn : chunk_size = 1048576 := by norm_num [chunk_size]
    have hc : (chunk_size : ℤ) = 1048576 := by rw [hcn]; norm_num
    by_cases h : bw < target
    · rw [gen_loop_enter env target bw pos k h (hw k)]
      have hm : (min (chunk_size : ℤ) (target - bw)).toNat = min chunk_size r := by
        omega
      have hrpos : 0 < r := by omega
      have hrec : (target - (bw + min (chunk_size : ℤ) (target - bw))).toNat
          = r - min chunk_size r := by omega
      have hlt : r - min chunk_size r < r := by omega
      obtain ⟨ih1, ih2, ih3⟩ :=
        ih (r - min chunk_size r) hlt target
          (bw + min (chunk_size : ℤ) (target - bw)) hrec
          (pos + (min (chunk_size : ℤ) (target - bw)).toNat) (k + 1)
      refine ⟨ih1, ?_, ?_⟩
      · rw [List.length_append, List.length_map, List.length_range, ih2]
        omega
      · rw [ih3, hm]
        exact sizes_cons r hrpos
    · rw [gen_loop_exit env target bw pos k h]
      have hr0 : r = 0 := by omega
      subst hr0
      simp

/-- When `size_gb` is non-negative, Python `int()` truncation agrees with the
floor used by the specification. -/
lemma target_bytes_of_nonneg (size_gb : ℚ) (h : 0 ≤ size_gb) :
    target_bytes size_gb = ⌊size_gb * (1024 : ℚ) ^ 3⌋ := by
  have hq : 0 ≤ size_gb * (1024 : ℚ) ^ 3 := by positivity
  simp [target_bytes, py_int, hq]

lemma target_bytes_nonneg (size_gb : ℚ) (h : 0 ≤ size_gb) :
    0 ≤ target_bytes size_gb := by
  rw [target_bytes_of_nonneg size_gb h]
  exact Int.floor_nonneg.mpr (by positivity)

/-- A negative size yields a non-positive target byte count. -/
lemma target_bytes_nonpos (size_gb : ℚ) (h : size_gb < 0) :
    target_bytes size_gb ≤ 0 := by
  have hq : size_gb * (1024 : ℚ) ^ 3 < 0 :=
    mul_neg_of_neg_of_pos h (by norm_num)
  have hq2 : ¬ 0 ≤ size_gb * (1024 : ℚ) ^ 3 := not_le.mpr hq
  simp only [target_bytes, py_int, hq2, if_false]
  exact Int.ceil_le.mpr (by exact_mod_cast hq.le)

/-- The completed-loop results of `gen_loop` from the initial state. -/
lemma gen_loop_ok_all (env : Env) (hw : ∀ j, env.write_ok j = true) (target : ℤ) :
    (gen_loop env target 0 0 0).1 = true :=
  (gen_loop_spec env hw target.toNat target 0 (by rw [Int.sub_zero]) 0 0).1

lemma gen_loop_length_all (env : Env) (hw : ∀ j, env.write_ok j = true) (target : ℤ) :
    (gen_loop env target 0 0 0).2.1.length = target.toNat :=
  (gen_loop_spec env hw target.toNat target 0 (by rw [Int.sub_zero]) 0 0).2.1

lemma gen_loop_sizes_all (env : Env) (hw : ∀ j, env.write_ok j = true) (target : ℤ) :
    (gen_loop env target 0 0 0).2.2 =
      List.replicate (target.toNat / chunk_size) chunk_size ++
        (if target.toNat % chunk_size = 0 then [] else [target.toNat % chunk_size]) :=
  (gen_loop_spec env hw target.toNat target 0 (by rw [Int.sub_zero]) 0 0).2.2

/-- A successful run in full: open succeeds and every write succeeds. -/
lemma generate_random_file_eq (env : Env) (hw : ∀ j, env.write_ok j = true)
    (ho : env.open_ok = true) (filename : String) (size_gb : ℚ)
    (prior : Option (List Byte)) :
    generate_random_file env filename size_gb prior =
      { file := some (gen_loop env (target_bytes size_gb) 0 0 0).2.1,
        writes := (gen_loop env (target_bytes size_gb) 0 0 0).2.2,
        stdout := [completion_message filename size_gb],
        ok := true } := by
  have h1 := gen_loop_ok_all env hw (target_bytes size_gb)
  simp [generate_random_file, ho, h1]

/-- Any successful run produces a file of exactly `target_bytes` bytes. -/
lemma run_file_length (env : Env) (hw : ∀ j, env.write_ok j = true)
    (ho : env.open_ok = true) (filename : String) (size_gb : ℚ)
    (prior : Option (List Byte)) :
    ((generate_random_file env filename size_gb prior).file).map List.length
      = some (target_bytes size_gb).toNat := by
  rw [generate_random_file_eq env hw ho filename size_gb prior]
  rw [Option.map_some', gen_loop_length_all env hw (target_bytes size_gb)]

/-- When the target byte count is non-positive the loop body never runs. -/
lemma generate_of_nonpos_target (env : Env) (ho : env.open_ok = true)
    (filename : String) (size_gb : ℚ) (prior : Option (List Byte))
    (ht : target_bytes size_gb ≤ 0) :
    generate_random_file env filename size_gb prior =
      { file := some [], writes := [],
        stdout := [completion_message filename size_gb], ok := true } := by
  have hexit := gen_loop_exit env (target_bytes size_gb) 0 0 0 (by omega)
  simp [generate_random_file, ho, hexit]

/-- Closed form of `bytes_written` at each iteration boundary. -/
lemma bytes_written_after_eq (target : ℤ) (j : ℕ) :
    bytes_written_after target j = min ((j : ℤ) * chunk_size) (max target 0) := by
  have hc : (chunk_size : ℤ) = 1048576 := by norm_num [chunk_size]
  induction j with
  | zero => simp [bytes_written_after]
  | succ n ih =>
    rw [bytes_written_after, ih, loop_step]
    simp only [hc]
    by_cases h : min ((n : ℤ) * 1048576) (max target 0) < target
    · rw [if_pos h]
      omega
    · rw [if_neg h]
      omega

/-- One loop iteration never decreases `bytes_written`. -/
lemma loop_body_mono (s : ℕ → Byte) (target : ℤ) (st : LoopState) :
    st.bytes_written ≤ (loop_body s target st).bytes_written := by
  have hc : (chunk_size : ℤ) = 1048576 := by norm_num [chunk_size]
  rw [loop_body]
  by_cases h : st.bytes_written < target
  · rw [if_pos h]
    simp only []
    omega
  · rw [if_neg h]

/-- Invariant of the loop state: `bytes_written` stays in `[0, target]` and
always equals the number of bytes written to the file so far. -/
lemma state_after_inv (s : ℕ → Byte) (target : ℤ) (ht : 0 ≤ target) (j : ℕ) :
    0 ≤ (state_after s target j).bytes_written ∧
    (state_after s target j).bytes_written ≤ target ∧
    ((state_after s target j).content.length : ℤ)
      = (state_after s target j).bytes_written := by
  have hc : (chunk_size : ℤ) = 1048576 := by norm_num [chunk_size]
  induction j with
  | zero => refine ⟨le_refl 0, ht, by simp [state_after]⟩
  | succ n ih =>
    obtain ⟨ih1, ih2, ih3⟩ := ih
    rw [state_after, loop_body]
    by_cases h : (state_after s target n).bytes_written < target
    · rw [if_pos h]
      refine ⟨by simp only []; omega, by simp only []; omega, ?_⟩
      simp only [List.length_append, List.length_map, List.length_range]
      push_cast
      omega
    · rw [if_neg h]
      exact ⟨ih1, ih2, ih3⟩

/-- A failure-free environment (used as a concrete witness input). -/
def okEnv : Env where
  urandom := fun _ => (0 : Byte)
  open_ok := true
  write_ok := fun _ => true

/-- A second failure-free environment with a different random stream. -/
def okEnv2 : Env where
  urandom := fun n => ⟨n % 256, Nat.mod_lt n (by norm_num)⟩
  open_ok := true
  write_ok := fun _ => true

/-- Arithmetic form of the ceiling division counting the writes. -/
lemma ceil_div_len (t : ℕ) :
    t / chunk_size + (if t % chunk_size = 0 then 0 else 1)
      = (t + chunk_size - 1) / chunk_size := by
  have hcn : chunk_size = 1048576 := by norm_num [chunk_size]
  rw [hcn]
  by_cases h : t % 1048576 = 0
  · rw [if_pos h]
    omega
  · rw [if_neg h]
    omega

/-! ### Claims -/

/-- C1: for every non-negative `size_in_gibibytes`, after a successful call
the file at the given path has byte length exactly
`floor(size_in_gibibytes * 1024 ^ 3)`. -/
theorem c1_file_length_eq_floor (env : Env) (filename : String) (size_gb : ℚ)
    (prior : Option (List Byte))
    (hw : ∀ j, env.write_ok j = true) (ho : env.open_ok = true)
    (hs : 0 ≤ size_gb) :
    ∃ c : List Byte,
      (generate_random_file env filename size_gb prior).file = some c ∧
      (c.length : ℤ) = ⌊size_gb * (1024 : ℚ) ^ 3⌋ := by
  rw [generate_random_file_eq env hw ho filename size_gb prior]
  refine ⟨_, rfl, ?_⟩
  rw [gen_loop_length_all env hw (target_bytes size_gb),
    ← target_bytes_of_nonneg size_gb hs]
  have h0 := target_bytes_nonneg size_gb hs
  omega

/-- Witness for C1 at `size_gb = 1` in a failure-free environment. -/
theorem c1_witness :
    ∃ c : List Byte,
      (generate_random_file okEnv "random_1gb_file.bin" 1 none).file = some c ∧
      (c.length : ℤ) = ⌊(1 : ℚ) * (1024 : ℚ) ^ 3⌋ :=
  c1_file_length_eq_floor okEnv "random_1gb_file.bin" 1 none
    (fun _ => rfl) rfl (by norm_num)

/-- C2 counterexample: at `size_gb = -1` the call does not fail: it completes
(`ok = true`) and prints the confirmation line, refuting the claim that a
negative size fails with an invalid-argument condition. -/
theorem c2_counterexample :
    (generate_random_file okEnv "random_1gb_file.bin" (-1) none).ok = true ∧
    (generate_random_file okEnv "random_1gb_file.bin" (-1) none).stdout ≠ [] := by
  have ht : target_bytes (-1) ≤ 0 := target_bytes_nonpos (-1) (by norm_num)
  rw [generate_of_nonpos_target okEnv rfl "random_1gb_file.bin" (-1) none ht]
  exact ⟨rfl, by simp⟩

/-- C2 (amended): for every negative `size_in_gibibytes` the call does not
fail at all: the target byte count is non-positive, the loop exits
immediately, and the call completes successfully, printing the confirmation
line (the source performs no argument validation). -/
theorem c2_negative_size_succeeds (env : Env) (filename : String)
    (size_gb : ℚ) (prior : Option (List Byte))
    (hs : size_gb < 0) (ho : env.open_ok = true) :
    (generate_random_file env filename size_gb prior).ok = true ∧
    (generate_random_file env filename size_gb prior).stdout =
      [completion_message filename size_gb] := by
  rw [generate_of_nonpos_target env ho filename size_gb prior
    (target_bytes_nonpos size_gb hs)]
  exact ⟨rfl, rfl⟩

/-- Witness for the amended C2 at `size_gb = -2`. -/
theorem c2_witness :
    (generate_random_file okEnv "random_1gb_file.bin" (-2) none).ok = true ∧
    (generate_random_file okEnv "random_1gb_file.bin" (-2) none).stdout =
      [completion_message "random_1gb_file.bin" (-2)] :=
  c2_negative_size_succeeds okEnv "random_1gb_file.bin" (-2) none
    (by norm_num) rfl

/-- C3: `size_in_gibibytes = 0` leaves an existing, empty (0-byte) file and
performs zero writes; the loop body is never entered. -/
theorem c3_zero_size_empty_file (env : Env) (filename : String)
    (prior : Option (List Byte)) (ho : env.open_ok = true) :
    (generate_random_file env filename 0 prior).file = some [] ∧
    (generate_random_file env filename 0 prior).writes = [] ∧
    (generate_random_file env filename 0 prior).ok = true := by
  have ht : target_bytes 0 ≤ 0 := by
    rw [target_bytes_of_nonneg 0 le_rfl]
    simp
  rw [generate_of_nonpos_target env ho filename 0 prior ht]
  exact ⟨rfl, rfl, rfl⟩

/-- Witness for C3. -/
theorem c3_witness :
    (generate_random_file okEnv "random_1gb_file.bin" 0 none).file = some [] ∧
    (generate_random_file okEnv "random_1gb_file.bin" 0 none).writes = [] ∧
    (generate_random_file okEnv "random_1gb_file.bin" 0 none).ok = true :=
  c3_zero_size_empty_file okEnv "random_1gb_file.bin" none rfl

/-- C4: for positive `target_bytes = t`, the loop performs exactly
`ceil(t / chunk_size)` writes; every write except possibly the last is
exactly `chunk_size` bytes; if `chunk_size ∣ t` there are `t / chunk_size`
writes all of `chunk_size` bytes, otherwise the last write is
`t % chunk_size` bytes; and if `t < chunk_size` there is exactly one write
of `t` bytes. -/
theorem c4_chunk_writes (env : Env) (t : ℕ) (ws : List ℕ)
    (hw : ∀ j, env.write_ok j = true) (ht : 0 < t)
    (hws : ws = (gen_loop env (t : ℤ) 0 0 0).2.2) :
    ws.length = (t + chunk_size - 1) / chunk_size ∧
    (∀ w ∈ ws.dropLast, w = chunk_size) ∧
    (t % chunk_size = 0 →
      ws = List.replicate (t / chunk_size) chunk_size ∧
      ws.length = t / chunk_size) ∧
    (t % chunk_size ≠ 0 →
      ws.getLast? = some (t % chunk_size) ∧
      ws.length = t / chunk_size + 1) ∧
    (t < chunk_size → ws = [t]) := by
  have hchar := gen_loop_sizes_all env hw (t : ℤ)
  have htn : ((t : ℤ)).toNat = t := by omega
  rw [htn] at hchar
  rw [hws, hchar]
  refine ⟨?_, ?_, ?_, ?_, ?_⟩
  · rw [List.length_append, List.length_replicate, ← ceil_div_len t]
    by_cases h : t % chunk_size = 0
    · rw [if_pos h, if_pos h]
      simp
    · rw [if_neg h, if_neg h]
      simp
  · intro w hwmem
    by_cases h : t % chunk_size = 0
    · rw [if_pos h, List.append_nil] at hwmem
      exact List.eq_of_mem_replicate (List.dropLast_subset _ hwmem)
    · rw [if_neg h, List.dropLast_concat] at hwmem
      exact List.eq_of_mem_replicate hwmem
  · intro h
    rw [if_pos h, List.append_nil]
    exact ⟨rfl, List.length_replicate _ _⟩
  · intro h
    rw [if_neg h]
    refine ⟨List.getLast?_concat _, ?_⟩
    rw [List.length_append, List.length_replicate]
    rfl
  · intro h
    rw [Nat.div_eq_of_lt h, Nat.mod_eq_of_lt h]
    have hne : t ≠ 0 := by omega
    rw [if_neg hne]
    rfl

/-- Witness for C4 at `t = 3` (a single partial write). -/
theorem c4_witness :
    ((gen_loop okEnv (3 : ℤ) 0 0 0).2.2).length
        = (3 + chunk_size - 1) / chunk_size ∧
    (∀ w ∈ ((gen_loop okEnv (3 : ℤ) 0 0 0).2.2).dropLast, w = chunk_size) ∧
    (3 % chunk_size = 0 →
      (gen_loop okEnv (3 : ℤ) 0 0 0).2.2 =
        List.replicate (3 / chunk_size) chunk_size ∧
      ((gen_loop okEnv (3 : ℤ) 0 0 0).2.2).length = 3 / chunk_size) ∧
    (3 % chunk_size ≠ 0 →
      ((gen_loop okEnv (3 : ℤ) 0 0 0).2.2).getLast? = some (3 % chunk_size) ∧
      ((gen_loop okEnv (3 : ℤ) 0 0 0).2.2).length = 3 / chunk_size + 1) ∧
    (3 < chunk_size → (gen_loop okEnv (3 : ℤ) 0 0 0).2.2 = [3]) :=
  c4_chunk_writes okEnv 3 ((gen_loop okEnv (3 : ℤ) 0 0 0).2.2)
    (fun _ => rfl) (by norm_num) rfl

/-- C5: re-running on a path whose file already exists truncates at open:
the final file length equals the new target byte count, whatever the prior
content, and coincides with the result of running on an absent file. -/
theorem c5_overwrite_truncates (env : Env) (filename : String) (size_gb : ℚ)
    (prior : List Byte)
    (hw : ∀ j, env.write_ok j = true) (ho : env.open_ok = true)
    (hs : 0 ≤ size_gb) :
    ((generate_random_file env filename size_gb (some prior)).file).map
        List.length = some (target_bytes size_gb).toNat ∧
    ((target_bytes size_gb).toNat : ℤ) = ⌊size_gb * (1024 : ℚ) ^ 3⌋ ∧
    ((generate_random_file env filename size_gb (some prior)).file).map
        List.length =
      ((generate_random_file env filename size_gb none).file).map
        List.length := by
  refine ⟨run_file_length env hw ho filename size_gb (some prior), ?_, ?_⟩
  · rw [← target_bytes_of_nonneg size_gb hs]
    have h0 := target_bytes_nonneg size_gb hs
    omega
  · rw [run_file_length env hw ho filename size_gb (some prior),
      run_file_length env hw ho filename size_gb none]

/-- Witness for C5 with a non-empty prior file and `size_gb = 0`. -/
theorem c5_witness :
    ((generate_random_file okEnv "random_1gb_file.bin" 0
        (some [(0 : Byte), 0, 0])).file).map List.length
      = some (target_bytes 0).toNat ∧
    ((target_bytes 0).toNat : ℤ) = ⌊(0 : ℚ) * (1024 : ℚ) ^ 3⌋ ∧
    ((generate_random_file okEnv "random_1gb_file.bin" 0
        (some [(0 : Byte), 0, 0])).file).map List.length =
      ((generate_random_file okEnv "random_1gb_file.bin" 0 none).file).map
        List.length :=
  c5_overwrite_truncates okEnv "random_1gb_file.bin" 0 [0, 0, 0]
    (fun _ => rfl) rfl le_rfl

/-- C6: on success exactly one stdout line of the exact form
`File '<path>' of <size>GB has been created.` is emitted; on any failure
(open or write error) the call does not emit the confirmation line. -/
theorem c6_stdout_message (env : Env) (filename : String) (size_gb : ℚ)
    (prior : Option (List Byte)) :
    ((∀ j, env.write_ok j = true) → env.open_ok = true →
      (generate_random_file env filename size_gb prior).stdout =
        [completion_message filename size_gb] ∧
      (generate_random_file env filename size_gb prior).ok = true) ∧
    ((generate_random_file env filename size_gb prior).ok = false →
      (generate_random_file env filename size_gb prior).stdout = []) ∧
    (env.open_ok = false →
      (generate_random_file env filename size_gb prior).ok = false) := by
  refine ⟨fun hw ho => ?_, ?_, ?_⟩
  · rw [generate_random_file_eq env hw ho filename size_gb prior]
    exact ⟨rfl, rfl⟩
  · intro hfail
    by_cases ho : env.open_ok = true
    · by_cases hl : (gen_loop env (target_bytes size_gb) 0 0 0).1 = true
      · exfalso
        have hok : (generate_random_file env filename size_gb prior).ok = true := by
          simp [generate_random_file, ho, hl]
        rw [hok] at hfail
        exact Bool.noConfusion hfail
      · have hl2 : (gen_loop env (target_bytes size_gb) 0 0 0).1 = false :=
          Bool.eq_false_iff.mpr hl
        simp [generate_random_file, ho, hl2]
    · have ho2 : env.open_ok = false := Bool.eq_false_iff.mpr ho
      simp [generate_random_file, ho2]
  · intro ho
    simp [generate_random_file, ho]

/-- Witness for C6 in a failure-free environment at `size_gb = 1`. -/
theorem c6_witness :
    ((∀ j, okEnv.write_ok j = true) → okEnv.open_ok = true →
      (generate_random_file okEnv "random_1gb_file.bin" 1 none).stdout =
        [completion_message "random_1gb_file.bin" 1] ∧
      (generate_random_file okEnv "random_1gb_file.bin" 1 none).ok = true) ∧
    ((generate_random_file okEnv "random_1gb_file.bin" 1 none).ok = false →
      (generate_random_file okEnv "random_1gb_file.bin" 1 none).stdout = []) ∧
    (okEnv.open_ok = false →
      (generate_random_file okEnv "random_1gb_file.bin" 1 none).ok = false) :=
  c6_stdout_message okEnv "random_1gb_file.bin" 1 none

/-- C7: the loop terminates.  Every iteration entered with
`bytes_written < target` writes at least one byte, strictly increasing
`bytes_written`, and after finitely many iterations (`target.toNat` is
enough) the loop condition is false; for a non-negative target
`bytes_written` then equals `target`, and for `target ≤ 0` the loop exits
immediately (zero iterations suffice). -/
theorem c7_loop_terminates (target : ℤ) :
    (∀ bw : ℤ, bw < target →
      bw + 1 ≤ loop_step target bw ∧
      1 ≤ min (chunk_size : ℤ) (target - bw)) ∧
    (¬ bytes_written_after target target.toNat < target) ∧
    (0 ≤ target → bytes_written_after target target.toNat = target) ∧
    (target ≤ 0 → ¬ bytes_written_after target 0 < target) := by
  have hc : (chunk_size : ℤ) = 1048576 := by norm_num [chunk_size]
  have hafter := bytes_written_after_eq target target.toNat
  rw [hc] at hafter
  refine ⟨fun bw hbw => ?_, ?_, fun h0 => ?_, fun h0 => ?_⟩
  · rw [loop_step, if_pos hbw]
    omega
  · rw [hafter]
    omega
  · rw [hafter]
    omega
  · have h00 := bytes_written_after_eq target 0
    rw [hc] at h00
    rw [h00]
    omega

/-- Witness for C7 at `target = 5`. -/
theorem c7_witness :
    (∀ bw : ℤ, bw < 5 →
      bw + 1 ≤ loop_step 5 bw ∧
      1 ≤ min (chunk_size : ℤ) (5 - bw)) ∧
    (¬ bytes_written_after 5 (5 : ℤ).toNat < 5) ∧
    ((0 : ℤ) ≤ 5 → bytes_written_after 5 (5 : ℤ).toNat = 5) ∧
    ((5 : ℤ) ≤ 0 → ¬ bytes_written_after 5 0 < 5) :=
  c7_loop_terminates 5

/-- C8: loop invariant.  At every iteration boundary
`0 ≤ bytes_written ≤ target_bytes`, `bytes_written` never decreases from one
boundary to the next, and the length of the file content written so far
equals `bytes_written` (so the file grows monotonically and never exceeds the
target size). -/
theorem c8_loop_invariant (s : ℕ → Byte) (target : ℤ) (ht : 0 ≤ target)
    (j : ℕ) :
    0 ≤ (state_after s target j).bytes_written ∧
    (state_after s target j).bytes_written ≤ target ∧
    (state_after s target j).bytes_written ≤
      (state_after s target (j + 1)).bytes_written ∧
    ((state_after s target j).content.length : ℤ)
      = (state_after s target j).bytes_written := by
  obtain ⟨h1, h2, h3⟩ := state_after_inv s target ht j
  refine ⟨h1, h2, ?_, h3⟩
  rw [state_after]
  exact loop_body_mono s target (state_after s target j)

/-- Witness for C8 at `target = 3`, third iteration boundary. -/
theorem c8_witness :
    0 ≤ (state_after (fun _ => (0 : Byte)) 3 2).bytes_written ∧
    (state_after (fun _ => (0 : Byte)) 3 2).bytes_written ≤ 3 ∧
    (state_after (fun _ => (0 : Byte)) 3 2).bytes_written ≤
      (state_after (fun _ => (0 : Byte)) 3 (2 + 1)).bytes_written ∧
    (((state_after (fun _ => (0 : Byte)) 3 2).content.length : ℤ)
      = (state_after (fun _ => (0 : Byte)) 3 2).bytes_written) :=
  c8_loop_invariant (fun _ => (0 : Byte)) 3 (by norm_num) 2

/-- C9: two successful runs with the same `size_in_gibibytes` produce files
of identical byte length, whatever the random streams, paths and prior file
contents of each run. -/
theorem c9_length_depends_only_on_size (env1 env2 : Env)
    (f1 f2 : String) (p1 p2 : Option (List Byte)) (size_gb : ℚ)
    (hw1 : ∀ j, env1.write_ok j = true) (ho1 : env1.open_ok = true)
    (hw2 : ∀ j, env2.write_ok j = true) (ho2 : env2.open_ok = true) :
    ((generate_random_file env1 f1 size_gb p1).file).map List.length =
      ((generate_random_file env2 f2 size_gb p2).file).map List.length := by
  rw [run_file_length env1 hw1 ho1 f1 size_gb p1,
    run_file_length env2 hw2 ho2 f2 size_gb p2]

/-- Witness for C9 with two different random streams. -/
theorem c9_witness :
    ((generate_random_file okEnv "a.bin" 1 none).file).map List.length =
      ((generate_random_file okEnv2 "b.bin" 1
          (some [(0 : Byte)])).file).map List.length :=
  c9_length_depends_only_on_size okEnv okEnv2 "a.bin" "b.bin" none
    (some [(0 : Byte)]) 1 (fun _ => rfl) rfl (fun _ => rfl) rfl

/-- C10 (implicit behaviour): for every negative `size_in_gibibytes` the call
raises no error: the target byte count is non-positive so the loop condition
is false at once, the file is truncated to an existing empty file, zero
writes are performed, and the completion message is printed as on success. -/
theorem c10_negative_size_no_error (env : Env) (filename : String)
    (prior : Option (List Byte)) (size_gb : ℚ)
    (hs : size_gb < 0) (ho : env.open_ok = true) :
    target_bytes size_gb ≤ 0 ∧
    (generate_random_file env filename size_gb prior).file = some [] ∧
    (generate_random_file env filename size_gb prior).writes = [] ∧
    (generate_random_file env filename size_gb prior).ok = true ∧
    (generate_random_file env filename size_gb prior).stdout =
      [completion_message filename size_gb] := by
  have ht := target_bytes_nonpos size_gb hs
  rw [generate_of_nonpos_target env ho filename size_gb prior ht]
  exact ⟨ht, rfl, rfl, rfl, rfl⟩

/-- Witness for C10 at `size_gb = -1/2`. -/
theorem c10_witness :
    target_bytes (-1/2) ≤ 0 ∧
    (generate_random_file okEnv "random_1gb_file.bin" (-1/2) none).file
      = some [] ∧
    (generate_random_file okEnv "random_1gb_file.bin" (-1/2) none).writes
      = [] ∧
    (generate_random_file okEnv "random_1gb_file.bin" (-1/2) none).ok
      = true ∧
    (generate_random_file okEnv "random_1gb_file.bin" (-1/2) none).stdout
      = [completion_message "random_1gb_file.bin" (-1/2)] :=
  c10_negative_size_no_error okEnv "random_1gb_file.bin" none (-1/2)
    (by norm_num) rfl

end Bincreator
